import Mathlib

/-!
Verification of the quiz application core, shallowly embedded from the
Python source (app.py): question bank loader and validator, question
selector, quiz session state machine, and result summarizer.
-/

namespace QuizApp

/-- An atomic JSON value of the question file: a string, an integer, or
null.  On this fragment Python equality is structural, as derived here.
(Floats and booleans, which Python compares across types, are left out of
the fragment; no claim turns on them.) -/
inductive PyAtom where
  | str : String → PyAtom
  | intVal : Int → PyAtom
  | nullVal : PyAtom
deriving DecidableEq

/-- A JSON value as the validator distinguishes them: an atom, or a list of
atoms (the one nesting level the claims exercise; list elements are only
ever compared for equality or counted). -/
inductive PyVal where
  | atom : PyAtom → PyVal
  | listVal : List PyAtom → PyVal
deriving DecidableEq

/-- A question dict of the JSON file as seen by QuizService._validate_question.
Each of the three keys of interest may be absent, and a present value may be
of any JSON type. -/
structure QuestionRecord where
  question : Option PyVal
  options : Option PyVal
  correct_answer : Option PyVal
deriving DecidableEq

/-- One entry of the parsed question array: a dict, or a non-iterable value
(number, boolean, null), over which the key test of the source raises
TypeError.  (An entry that is itself a string or a list is not modelled: the
key test is then a substring or membership test that fails, so such entries
are skipped.) -/
inductive RawRecord where
  | dict : QuestionRecord → RawRecord
  | nonIterable : RawRecord
deriving DecidableEq

/-- An exception escaping _validate_question or load_questions: the except
clause of the source catches only json.JSONDecodeError and IOError, so
TypeError (non-iterable record or source) and AttributeError (strip() on a
non-string question value) propagate to the caller. -/
inductive LoadError where
  | typeError
  | attributeError
deriving DecidableEq

/-- The strip()-emptiness test of the source: a string strips to empty iff
every character is whitespace. -/
def is_blank (s : String) : Bool := s.toList.all Char.isWhitespace

/-- QuizService._validate_question: a non-iterable record raises TypeError
at the key test; a record missing a key is rejected; then strip() is called
on the question value — an AttributeError if it is not a string — and a
whitespace-only text is rejected; then options must be a list of length at
least 2; finally the correct_answer value must be a member of the options
list (a list value never equals an atomic element). -/
def validate_question (rec : RawRecord) : Except LoadError Bool :=
  match rec with
  | RawRecord.nonIterable => Except.error LoadError.typeError
  | RawRecord.dict q =>
    match q.question, q.options, q.correct_answer with
    | some qv, some opts, some ca =>
      match qv with
      | PyVal.atom (PyAtom.str text) =>
        if is_blank text then Except.ok false
        else
          match opts with
          | PyVal.listVal xs =>
            if xs.length < 2 then Except.ok false
            else
              match ca with
              | PyVal.atom a => Except.ok (decide (a ∈ xs))
              | PyVal.listVal _ => Except.ok false
          | PyVal.atom _ => Except.ok false
      | _ => Except.error LoadError.attributeError
    | _, _, _ => Except.ok false

/-- The validation loop of load_questions: records are validated in order;
a record on which validation returns false is skipped (with a warning), and
a record on which validation raises aborts the whole load with that
exception. -/
def validateAll : List RawRecord → Except LoadError (List RawRecord)
  | [] => Except.ok []
  | r :: rs =>
    match validate_question r with
    | Except.error e => Except.error e
    | Except.ok true =>
      match validateAll rs with
      | Except.error e => Except.error e
      | Except.ok v => Except.ok (r :: v)
    | Except.ok false => validateAll rs

/-- The state of the question source file, as distinguished by
QuizService.load_questions: the file may be absent, may fail to parse
(json.JSONDecodeError or IOError), may parse to a JSON array of records, or
may parse to a non-iterable scalar (a number, boolean or null), over which
the enumerate loop of the source raises TypeError. -/
inductive Source where
  | missing
  | malformed
  | parsedList : List RawRecord → Source
  | parsedScalar
deriving DecidableEq

/-- Outcome of one call to QuizService.load_questions: the returned value (or
escaped exception), the cache field after the call, and whether the source
file was consulted. -/
structure LoadResult where
  result : Except LoadError (List RawRecord)
  cache : Option (List RawRecord)
  didRead : Bool

/-- QuizService.load_questions: returns the cache when set; otherwise reads
the source.  A missing file yields an empty list (a warning is logged) and a
parse failure yields an empty list (an error is logged) — in both cases the
cache is left unset.  A parsed array goes through the validation loop and
the validated list is cached; an exception raised by validation propagates
and nothing is cached.  A parsed non-iterable scalar makes the enumerate
loop raise TypeError, which is not caught. -/
def load_questions (cache : Option (List RawRecord)) (src : Source) : LoadResult :=
  match cache with
  | some qs => ⟨Except.ok qs, some qs, false⟩
  | none =>
    match src with
    | Source.missing => ⟨Except.ok [], none, true⟩
    | Source.malformed => ⟨Except.ok [], none, true⟩
    | Source.parsedScalar => ⟨Except.error LoadError.typeError, none, true⟩
    | Source.parsedList records =>
      match validateAll records with
      | Except.ok validated => ⟨Except.ok validated, some validated, true⟩
      | Except.error e => ⟨Except.error e, none, true⟩

/-- A question record whose text is the blank string consisting of one
space: non-empty, yet rejected by the validator. -/
def ws_question : RawRecord :=
  RawRecord.dict
    ⟨some (PyVal.atom (PyAtom.str " ")),
     some (PyVal.listVal [PyAtom.str "Paris", PyAtom.str "Rome"]),
     some (PyVal.atom (PyAtom.str "Paris"))⟩

/-- A question record whose question value is null: the key test passes and
strip() is then called on None. -/
def null_question : RawRecord :=
  RawRecord.dict
    ⟨some (PyVal.atom PyAtom.nullVal),
     some (PyVal.listVal [PyAtom.str "Paris", PyAtom.str "Rome"]),
     some (PyVal.atom (PyAtom.str "Paris"))⟩

/-- C6 counterexample, refuting both halves of the claim.  First, a record
whose text is the non-empty blank string satisfies the claimed conditions
(non-empty text, a 2-entry options list, correct answer among the options)
yet validate_question returns false, because the source tests emptiness of
the text after strip().  Second, a record whose question value is null makes
validate_question raise AttributeError at strip() rather than return false,
so validation can signal failure other than by returning false. -/
theorem validate_question_counterexample :
    (validate_question ws_question = Except.ok false ∧
     (" " : String) ≠ "" ∧
     2 ≤ ([PyAtom.str "Paris", PyAtom.str "Rome"] : List PyAtom).length ∧
     PyAtom.str "Paris" ∈ ([PyAtom.str "Paris", PyAtom.str "Rome"] : List PyAtom)) ∧
    validate_question null_question = Except.error LoadError.attributeError := by
  refine ⟨⟨rfl, by decide, by decide, by decide⟩, rfl⟩

/-- C6 (amended): on dict records, validate_question returns true iff the
three keys are present, the question value is a string with a
non-whitespace character (the strip() test of the source), options is a
list of at least 2 entries, and the correct answer is a member of the
options.  But invalid records are not always skipped: a non-iterable record
raises TypeError at the key test, and a dict whose three keys are present
but whose question value is not a string raises AttributeError at strip();
only records on which validation returns false are skipped. -/
theorem validate_question_spec (q : QuestionRecord) :
    (validate_question (RawRecord.dict q) = Except.ok true ↔
      ∃ t xs a, q.question = some (PyVal.atom (PyAtom.str t)) ∧
        q.options = some (PyVal.listVal xs) ∧
        q.correct_answer = some (PyVal.atom a) ∧
        is_blank t = false ∧ 2 ≤ xs.length ∧ a ∈ xs) ∧
    validate_question RawRecord.nonIterable = Except.error LoadError.typeError ∧
    (∀ v ov cv, q.question = some v → q.options = some ov → q.correct_answer = some cv →
      (∀ t, v ≠ PyVal.atom (PyAtom.str t)) →
      validate_question (RawRecord.dict q) = Except.error LoadError.attributeError) := by
  obtain ⟨qq, qo, qc⟩ := q
  refine ⟨?_, rfl, ?_⟩
  · cases qq with
    | none => simp [validate_question]
    | some qv =>
      cases qo with
      | none => simp [validate_question]
      | some ov =>
        cases qc with
        | none => simp [validate_question]
        | some cv =>
          cases qv with
          | listVal xs => simp [validate_question]
          | atom a =>
            cases a with
            | intVal n => simp [validate_question]
            | nullVal => simp [validate_question]
            | str t =>
              by_cases hw : is_blank t
              · simp [validate_question, hw]
              · rw [Bool.not_eq_true] at hw
                cases ov with
                | atom b => simp [validate_question, hw]
                | listVal xs =>
                  by_cases hl : xs.length < 2
                  · have hl2 : ¬ 2 ≤ xs.length := by omega
                    simp [validate_question, hw, hl, hl2]
                  · have hl2 : 2 ≤ xs.length := by omega
                    cases cv with
                    | listVal ys => simp [validate_question, hw, hl, hl2]
                    | atom b => simp [validate_question, hw, hl, hl2]
  · intro v ov cv hv ho hc hns
    obtain rfl : qq = some v := hv
    obtain rfl : qo = some ov := ho
    obtain rfl : qc = some cv := hc
    cases v with
    | listVal xs => rfl
    | atom a =>
      cases a with
      | str t => exact absurd rfl (hns t)
      | intVal n => rfl
      | nullVal => rfl

/-- A question record whose question value is the integer 5: present but not
a string. -/
def int_question : QuestionRecord :=
  ⟨some (PyVal.atom (PyAtom.intVal 5)),
   some (PyVal.listVal [PyAtom.str "Paris", PyAtom.str "Rome"]),
   some (PyVal.atom (PyAtom.str "Paris"))⟩

/-- C6 witness: a record whose question value is an integer has all claimed
keys present, its question value is not a string, and validation raises
AttributeError on it. -/
theorem validate_question_spec_witness :
    int_question.question = some (PyVal.atom (PyAtom.intVal 5)) ∧
    (∀ t, PyVal.atom (PyAtom.intVal 5) ≠ PyVal.atom (PyAtom.str t)) ∧
    validate_question (RawRecord.dict int_question) = Except.error LoadError.attributeError := by
  refine ⟨rfl, by intro t; simp, ?_⟩
  exact (validate_question_spec int_question).2.2 (PyVal.atom (PyAtom.intVal 5))
    (PyVal.listVal [PyAtom.str "Paris", PyAtom.str "Rome"])
    (PyVal.atom (PyAtom.str "Paris")) rfl rfl rfl (by intro t; simp)

/-- C7: with a cold cache, a missing file and a malformed file both yield an
empty list without an exception, but a source parsing to a non-iterable
scalar (for example the valid JSON document 5) makes load_questions raise
TypeError to its caller, contradicting the claim (and the docstring of the
source, which promises an empty list for an invalid file). -/
theorem load_questions_nonlist_raises :
    (load_questions none Source.parsedScalar).result = Except.error LoadError.typeError ∧
    (load_questions none Source.missing).result = Except.ok [] ∧
    (load_questions none Source.malformed).result = Except.ok [] := by
  exact ⟨rfl, rfl, rfl⟩

/-- C8 counterexample: after a first load of a missing source, no cache is
set, and a second load consults the source again — the claim that a second
call never re-reads the source fails for a missing (likewise malformed)
source. -/
theorem load_questions_missing_rereads :
    (load_questions none Source.missing).cache = none ∧
    (load_questions (load_questions none Source.missing).cache Source.missing).didRead = true := by
  exact ⟨rfl, rfl⟩

/-- C8 (amended): memoization holds exactly on the successful path.  When
the first load reads, parses and validates a list of records without an
exception, the second call returns the identical cached sequence and does
not consult the source. -/
theorem load_questions_memoized_on_success (rs : List RawRecord) (v : List RawRecord)
    (hok : validateAll rs = Except.ok v) :
    (load_questions (load_questions none (Source.parsedList rs)).cache
        (Source.parsedList rs)).result
      = (load_questions none (Source.parsedList rs)).result ∧
    (load_questions (load_questions none (Source.parsedList rs)).cache
        (Source.parsedList rs)).didRead = false := by
  simp [load_questions, hok]

/-- C8 witness: a one-record source whose record is skipped by validation
(so validation succeeds with an empty list); the first call caches the empty
validated list and the second call returns it without consulting the
source. -/
theorem load_questions_memoized_on_success_witness :
    validateAll [ws_question] = Except.ok [] ∧
    (load_questions (load_questions none (Source.parsedList [ws_question])).cache
        (Source.parsedList [ws_question])).result
      = (load_questions none (Source.parsedList [ws_question])).result ∧
    (load_questions (load_questions none (Source.parsedList [ws_question])).cache
        (Source.parsedList [ws_question])).didRead = false := by
  refine ⟨rfl, ?_, ?_⟩
  · exact (load_questions_memoized_on_success [ws_question] [] rfl).1
  · exact (load_questions_memoized_on_success [ws_question] [] rfl).2

/-- A validated question as stored in a quiz session: all three fields are
present and typed (only records passing _validate_question reach a session). -/
structure Question where
  question : String
  options : List String
  correct_answer : String
deriving DecidableEq

/-- QuizService.get_shuffled_questions, after the shuffle: the source copies
the cached bank, shuffles the copy in place, and truncates with the slice
questions[:max_questions] only when max_questions is truthy (not None and
nonzero) and the list is longer than max_questions.  The random shuffle is
modelled by quantifying over any permutation of the bank; the copy() makes
the cached bank untouched, which value semantics gives for free. -/
def get_shuffled_questions {α : Type} (shuffled : List α) (max_questions : Option Nat) : List α :=
  match max_questions with
  | none => shuffled
  | some m => if m ≠ 0 ∧ m < shuffled.length then shuffled.take m else shuffled

/-- Sample question used in concrete scenarios (from the sample file of the
source). -/
def q_paris : Question :=
  ⟨"What is the capital of France?", ["Berlin", "Madrid", "Paris", "Rome"], "Paris"⟩

/-- Second sample question. -/
def q_mars : Question :=
  ⟨"Which planet is known as the Red Planet?", ["Earth", "Mars", "Jupiter", "Venus"], "Mars"⟩

/-- A bank of 5 valid questions, for the concrete selection scenario. -/
def sample_bank5 : List Question :=
  [q_paris, q_mars,
   ⟨"What is 7 + 8?", ["12", "14", "15", "16"], "15"⟩,
   ⟨"What is the chemical symbol for gold?", ["Go", "Gd", "Au", "Ag"], "Au"⟩,
   ⟨"What is the smallest prime number?", ["0", "1", "2", "3"], "2"⟩]

/-- C9 counterexample: with a bank of one question and the provided limit 0,
the selector returns the whole bank (0 is falsy, so no truncation), whose
length 1 exceeds the limit — the claim that the result never has more than
limit items fails for the provided limit 0. -/
theorem get_shuffled_questions_zero_limit_counterexample :
    (get_shuffled_questions [q_paris] (some 0)).length = 1 ∧
    ¬ ((get_shuffled_questions [q_paris] (some 0)).length ≤ 0) := by
  exact ⟨rfl, by decide⟩

/-- C9 (amended): for any permutation of the bank produced by the shuffle,
the selected list is a permutation of a subset of the bank, never longer
than the bank, and never longer than the provided limit when that limit is
positive; a bank of 5 questions with limit 10 yields exactly 5 questions. -/
theorem get_shuffled_questions_bounds {α : Type} (bank shuffled : List α)
    (mq : Option Nat) (hperm : shuffled.Perm bank) :
    List.Subperm (get_shuffled_questions shuffled mq) bank ∧
    (get_shuffled_questions shuffled mq).length ≤ bank.length ∧
    (∀ m, mq = some m → 0 < m → (get_shuffled_questions shuffled mq).length ≤ m) ∧
    (bank.length = 5 → mq = some 10 → (get_shuffled_questions shuffled mq).length = 5) := by
  have hlen := hperm.length_eq
  cases mq with
  | none =>
    have hres : get_shuffled_questions shuffled none = shuffled := rfl
    rw [hres]
    refine ⟨hperm.subperm, by omega, by simp, ?_⟩
    intro _ h
    cases h
  | some m =>
    by_cases hc : m ≠ 0 ∧ m < shuffled.length
    · have hres : get_shuffled_questions shuffled (some m) = shuffled.take m := by
        simp only [get_shuffled_questions]
        rw [if_pos hc]
      rw [hres]
      have htk : (shuffled.take m).length = min m shuffled.length := List.length_take m shuffled
      refine ⟨((List.take_sublist m shuffled).subperm).trans hperm.subperm, by omega, ?_, ?_⟩
      · intro m2 hm2 _
        cases hm2
        omega
      · intro h5 hm10
        cases hm10
        omega
    · have hres : get_shuffled_questions shuffled (some m) = shuffled := by
        simp only [get_shuffled_questions]
        rw [if_neg hc]
      rw [hres]
      refine ⟨hperm.subperm, by omega, ?_, ?_⟩
      · intro m2 hm2 hpos
        cases hm2
        omega
      · intro h5 hm10
        cases hm10
        omega

/-- C9 witness: the 5-question bank with limit 10, and the identity
permutation as the shuffle outcome. -/
theorem get_shuffled_questions_bounds_witness :
    sample_bank5.Perm sample_bank5 ∧
    List.Subperm (get_shuffled_questions sample_bank5 (some 10)) sample_bank5 ∧
    (get_shuffled_questions sample_bank5 (some 10)).length = 5 := by
  refine ⟨List.Perm.refl _, ?_, ?_⟩
  · exact (get_shuffled_questions_bounds sample_bank5 sample_bank5 (some 10)
      (List.Perm.refl _)).1
  · exact (get_shuffled_questions_bounds sample_bank5 sample_bank5 (some 10)
      (List.Perm.refl _)).2.2.2 rfl rfl

/-- C10: with max_questions None or 0 the selector truncates nothing and
returns the whole shuffled bank; with a positive max_questions it returns the
whole shuffled bank when the bank is not longer than the limit, and the first
max_questions entries of the shuffled bank otherwise. -/
theorem get_shuffled_questions_truthiness {α : Type} (shuffled : List α) :
    get_shuffled_questions shuffled none = shuffled ∧
    get_shuffled_questions shuffled (some 0) = shuffled ∧
    ∀ m, 0 < m →
      (shuffled.length ≤ m → get_shuffled_questions shuffled (some m) = shuffled) ∧
      (m < shuffled.length → get_shuffled_questions shuffled (some m) = shuffled.take m) := by
  refine ⟨rfl, ?_, ?_⟩
  · simp only [get_shuffled_questions]
    rw [if_neg (by simp)]
  · intro m hm
    constructor
    · intro hle
      simp only [get_shuffled_questions]
      rw [if_neg (by omega)]
    · intro hlt
      simp only [get_shuffled_questions]
      rw [if_pos ⟨by omega, hlt⟩]

/-- C10 witness: a two-question bank, with limit 0 (no truncation) and with
limit 1 (truncation to the first entry). -/
theorem get_shuffled_questions_truthiness_witness :
    get_shuffled_questions [q_paris, q_mars] (some 0) = [q_paris, q_mars] ∧
    0 < 1 ∧ (1 : Nat) < ([q_paris, q_mars] : List Question).length ∧
    get_shuffled_questions [q_paris, q_mars] (some 1) = [q_paris] := by
  refine ⟨(get_shuffled_questions_truthiness [q_paris, q_mars]).2.1, by decide, by decide, ?_⟩
  have h := ((get_shuffled_questions_truthiness [q_paris, q_mars]).2.2 1 (by decide)).2 (by decide)
  simpa using h

/-- One recorded answer, as built by _handle_quiz_answer: the question text,
the submitted answer, the correct answer, the correctness flag, and the
options of the question. -/
structure AnswerRecord where
  question : String
  user_answer : String
  correct_answer : String
  is_correct : Bool
  options : List String
deriving DecidableEq

/-- The quiz fields of a validated session: quiz_questions, score,
current_question_index and answers, as initialized by the index route and
mutated by _handle_quiz_answer. -/
structure QuizState where
  quiz_questions : List Question
  score : Nat
  current_question_index : Nat
  answers : List AnswerRecord
deriving DecidableEq

/-- Errors of the answer-submission path: a missing or empty form answer
(flashed as a prompt to select an answer), and the IndexError raised when the
current index is out of range (caught at the route boundary, leaving the
session untouched). -/
inductive QuizError where
  | missingAnswer
  | indexError
  | noActiveSession
deriving DecidableEq

/-- Session initialization of the index route: score 0, index 0, empty answer
log, and the selected questions. -/
def start_session (qs : List Question) : QuizState :=
  ⟨qs, 0, 0, []⟩

/-- _handle_quiz_answer: a missing or empty form value is refused before any
mutation; otherwise the current question is fetched (raising IndexError when
the index is out of range), the submitted answer is compared with the correct
answer by exact string equality, one AnswerRecord is appended, the score is
incremented exactly on a correct answer, and the index is incremented. -/
def handle_quiz_answer (s : QuizState) (user_answer : Option String) :
    Except QuizError QuizState :=
  match user_answer with
  | none => Except.error QuizError.missingAnswer
  | some a =>
    if a = "" then Except.error QuizError.missingAnswer
    else
      match s.quiz_questions[s.current_question_index]? with
      | none => Except.error QuizError.indexError
      | some q =>
        let is_correct := a == q.correct_answer
        Except.ok ⟨s.quiz_questions,
                   s.score + (if is_correct then 1 else 0),
                   s.current_question_index + 1,
                   s.answers ++ [⟨q.question, a, q.correct_answer, is_correct, q.options⟩]⟩

/-- The completion test of the source (current index at or beyond the number
of questions), after which the quiz route redirects to the results page. -/
def quiz_complete (s : QuizState) : Bool :=
  decide (s.quiz_questions.length ≤ s.current_question_index)

/-- One POST of the quiz route: on an error the redirect leaves the session
unchanged; on success the session holds the new state. -/
def submit_step (s : QuizState) (inp : Option String) : QuizState :=
  match handle_quiz_answer s inp with
  | Except.ok s2 => s2
  | Except.error _ => s

/-- A whole sequence of answer submissions. -/
def run_submissions (s : QuizState) (inputs : List (Option String)) : QuizState :=
  inputs.foldl submit_step s

/-- The state-machine invariant: the index never passes the number of
questions, and the score is at most the number of recorded answers, which
equals the index. -/
def quiz_inv (s : QuizState) : Prop :=
  s.current_question_index ≤ s.quiz_questions.length ∧
  s.score ≤ s.answers.length ∧
  s.answers.length = s.current_question_index

lemma submit_step_preserves (s : QuizState) (inp : Option String) (h : quiz_inv s) :
    quiz_inv (submit_step s inp) ∧ (submit_step s inp).quiz_questions = s.quiz_questions := by
  obtain ⟨h1, h2, h3⟩ := h
  cases inp with
  | none => exact ⟨⟨h1, h2, h3⟩, rfl⟩
  | some a =>
    by_cases ha : a = ""
    · have hid : submit_step s (some a) = s := by
        simp only [submit_step, handle_quiz_answer, if_pos ha]
      rw [hid]
      exact ⟨⟨h1, h2, h3⟩, rfl⟩
    · cases hq : s.quiz_questions[s.current_question_index]? with
      | none =>
        have hid : submit_step s (some a) = s := by
          simp only [submit_step, handle_quiz_answer, if_neg ha, hq]
        rw [hid]
        exact ⟨⟨h1, h2, h3⟩, rfl⟩
      | some q =>
        have hlt : s.current_question_index < s.quiz_questions.length :=
          (List.getElem?_eq_some.mp hq).1
        have hid : submit_step s (some a) =
            ⟨s.quiz_questions,
             s.score + (if a == q.correct_answer then 1 else 0),
             s.current_question_index + 1,
             s.answers ++ [⟨q.question, a, q.correct_answer, a == q.correct_answer, q.options⟩]⟩ := by
          simp only [submit_step, handle_quiz_answer, if_neg ha, hq]
        rw [hid]
        refine ⟨⟨by simpa using hlt, ?_, ?_⟩, rfl⟩
        · simp only [List.length_append, List.length_cons, List.length_nil]
          by_cases hc : (a == q.correct_answer) = true <;> simp [hc] <;> omega
        · simp only [List.length_append, List.length_cons, List.length_nil]
          omega

lemma run_submissions_preserves (inputs : List (Option String)) :
    ∀ s : QuizState, quiz_inv s →
      quiz_inv (run_submissions s inputs) ∧
      (run_submissions s inputs).quiz_questions = s.quiz_questions := by
  induction inputs with
  | nil => intro s h; exact ⟨h, rfl⟩
  | cons inp rest ih =>
    intro s h
    have hstep := submit_step_preserves s inp h
    have hrest := ih (submit_step s inp) hstep.1
    refine ⟨hrest.1, ?_⟩
    calc (run_submissions s (inp :: rest)).quiz_questions
        = (run_submissions (submit_step s inp) rest).quiz_questions := rfl
      _ = (submit_step s inp).quiz_questions := hrest.2
      _ = s.quiz_questions := hstep.2

/-- C2: starting a session and running any finite sequence of answer
submissions leaves the selected questions unchanged, keeps the current index
between 0 and the number of questions, and keeps the score at most the
length of the answer log, which equals the current index. -/
theorem session_state_invariant (qs : List Question) (inputs : List (Option String)) :
    (run_submissions (start_session qs) inputs).quiz_questions = qs ∧
    (run_submissions (start_session qs) inputs).current_question_index ≤ qs.length ∧
    (run_submissions (start_session qs) inputs).score
      ≤ (run_submissions (start_session qs) inputs).answers.length ∧
    (run_submissions (start_session qs) inputs).answers.length
      = (run_submissions (start_session qs) inputs).current_question_index := by
  have h0 : quiz_inv (start_session qs) := ⟨Nat.zero_le _, Nat.le_refl _, rfl⟩
  have h := run_submissions_preserves inputs (start_session qs) h0
  obtain ⟨⟨h1, h2, h3⟩, hqq⟩ := h
  refine ⟨hqq, ?_, h2, h3⟩
  rw [hqq] at h1
  exact h1

/-- C1: on an in-progress session (the current index addresses a question)
and a non-empty submitted answer, _handle_quiz_answer succeeds, leaves the
questions unchanged, appends exactly one AnswerRecord built from the current
question and the submitted answer, increments the score exactly when the
submitted answer equals the correct answer as a string, increments the
current index, and the session is complete (redirect to results) exactly
when the incremented index equals the number of questions. -/
theorem submit_answer_correct (s : QuizState) (a : String) (q : Question)
    (ha : a ≠ "") (hq : s.quiz_questions[s.current_question_index]? = some q) :
    ∃ s2, handle_quiz_answer s (some a) = Except.ok s2 ∧
      s2.quiz_questions = s.quiz_questions ∧
      s2.answers = s.answers ++ [⟨q.question, a, q.correct_answer, a == q.correct_answer, q.options⟩] ∧
      s2.score = s.score + (if a == q.correct_answer then 1 else 0) ∧
      s2.current_question_index = s.current_question_index + 1 ∧
      (quiz_complete s2 = true ↔ s2.current_question_index = s.quiz_questions.length) := by
  have hlt : s.current_question_index < s.quiz_questions.length :=
    (List.getElem?_eq_some.mp hq).1
  refine ⟨⟨s.quiz_questions,
          s.score + (if a == q.correct_answer then 1 else 0),
          s.current_question_index + 1,
          s.answers ++ [⟨q.question, a, q.correct_answer, a == q.correct_answer, q.options⟩]⟩,
         ?_, rfl, rfl, rfl, rfl, ?_⟩
  · simp only [handle_quiz_answer, if_neg ha, hq]
  · simp only [quiz_complete, decide_eq_true_eq]
    omega

/-- C1 witness (Scenario B): a one-question session whose correct answer is
Paris; submitting Paris yields score 1, index 1 and a completed session. -/
theorem submit_answer_correct_witness :
    ("Paris" : String) ≠ "" ∧
    (start_session [q_paris]).quiz_questions[(start_session [q_paris]).current_question_index]?
      = some q_paris ∧
    ∃ s2, handle_quiz_answer (start_session [q_paris]) (some "Paris") = Except.ok s2 ∧
      s2.score = 1 ∧ s2.current_question_index = 1 ∧ quiz_complete s2 = true := by
  obtain ⟨s2, hok, hqq, hans, hsc, hidx, hcomp⟩ :=
    submit_answer_correct (start_session [q_paris]) "Paris" q_paris (by decide) rfl
  refine ⟨by decide, rfl, s2, hok, ?_, ?_, ?_⟩
  · rw [hsc]; decide
  · rw [hidx]; decide
  · apply hcomp.mpr
    rw [hidx]; decide

/-- C3: a missing or empty answer is refused with the missing-answer prompt
and the session state is left entirely unchanged. -/
theorem submit_answer_missing_unchanged (s : QuizState) :
    handle_quiz_answer s none = Except.error QuizError.missingAnswer ∧
    handle_quiz_answer s (some "") = Except.error QuizError.missingAnswer ∧
    submit_step s none = s ∧ submit_step s (some "") = s := by
  refine ⟨rfl, ?_, rfl, ?_⟩
  · simp [handle_quiz_answer]
  · simp [submit_step, handle_quiz_answer]

/-- The raw session mapping as the results route sees it: each quiz key may
be absent (a cleared or never-started session). -/
structure SessionData where
  quiz_questions : Option (List Question)
  score : Option Nat
  current_question_index : Option Nat
  answers : Option (List AnswerRecord)
deriving DecidableEq

/-- _is_valid_quiz_session: the three required keys are present. -/
def is_valid_quiz_session (s : SessionData) : Bool :=
  s.quiz_questions.isSome && s.score.isSome && s.current_question_index.isSome

/-- Floor of the base-2 logarithm of a positive natural, by repeated
halving.  The fuel argument only makes the recursion structural: halving
reaches 1 within n steps, so fuel n always suffices. -/
def natLog2F : Nat → Nat → Nat
  | 0, _ => 0
  | fuel + 1, n => if n ≤ 1 then 0 else natLog2F fuel (n / 2) + 1

/-- Floor of the base-2 logarithm (0 at 0). -/
def natLog2 (n : Nat) : Nat := natLog2F n n

/-- Nearest integer to a / b (b positive), ties to even: the correct
rounding of IEEE arithmetic and of the Python built-in round. -/
def roundHalfEvenDiv (a b : Nat) : Nat :=
  let q := a / b
  let r := a % b
  if 2 * r < b then q
  else if b < 2 * r then q + 1
  else if q % 2 = 0 then q else q + 1

/-- Floor of the base-2 logarithm of the positive rational num / den. -/
def log2FloorQ (num den : Nat) : Int :=
  if den ≤ num then Int.ofNat (natLog2 (num / den))
  else
    let k := natLog2 (den / num)
    if den ≤ num * 2 ^ k then -(Int.ofNat k) else -(Int.ofNat (k + 1))

/-- The IEEE binary64 double nearest to the positive rational num / den
(round to nearest, ties to even), as a mantissa and a power-of-two exponent
(the value is m times 2 to the g, not necessarily normalized): the rounding
grid is 2 to the (e - 52) for e the floor log2 of the value, clamped below
at 2 to the -1074 (the subnormal range).  Overflow is not modelled: the quiz
ratios lie in the interval from 0 to 100. -/
def floatRoundPos (num den : Nat) : Nat × Int :=
  let e := log2FloorQ num den
  let g : Int := max (e - 52) (-1074)
  if 0 ≤ g then (roundHalfEvenDiv num (den * 2 ^ g.toNat), g)
  else (roundHalfEvenDiv (num * 2 ^ (-g).toNat) den, g)

/-- Python float division a / b of naturals (b positive): the correctly
rounded binary64 quotient. -/
def float_div (a b : Nat) : Nat × Int :=
  if a = 0 then (0, 0) else floatRoundPos a b

/-- Python float multiplication of a nonnegative binary64 value by 100: the
exact product rounded back to binary64. -/
def float_mul100 (x : Nat × Int) : Nat × Int :=
  if x.1 = 0 then (0, 0)
  else if 0 ≤ x.2 then floatRoundPos (x.1 * 100 * 2 ^ x.2.toNat) 1
  else floatRoundPos (x.1 * 100) (2 ^ (-x.2).toNat)

/-- The Python built-in round on a nonnegative binary64 value: the nearest
integer, ties to even, of the exact value of the double. -/
def py_round_float (x : Nat × Int) : Nat :=
  if 0 ≤ x.2 then x.1 * 2 ^ x.2.toNat
  else roundHalfEvenDiv x.1 (2 ^ (-x.2).toNat)

/-- A check of the floating-point model at a half-integer ratio: 23 / 40 is
exactly 0.575, but its binary64 value is slightly below, and the binary64
product with 100 is 57.49999999999999289..., so the program rounds to 57 —
not the 58 that exact-rational rounding of 57.5 (ties to even) would give. -/
lemma percentage_float_example :
    py_round_float (float_mul100 (float_div 23 40)) = 57 := by decide

/-- The summary rendered by the results route. -/
structure ResultSummary where
  score : Nat
  total_questions : Nat
  percentage : Nat
  performance_class : String
  answers : List AnswerRecord
deriving DecidableEq

/-- The results route: on an invalid session it flashes a warning and
redirects to start (the no-active-session outcome); otherwise it computes
the percentage as the Python expression round of (score / total) * 100 —
both operations in binary64 floating point — for a positive total, 0
otherwise, and the performance class from the fixed thresholds, and renders
the summary (the human-readable performance message rendered alongside the
class, and the clearing of the session afterwards, are presentation). -/
def results (s : SessionData) : Except QuizError ResultSummary :=
  if is_valid_quiz_session s then
    let qs := s.quiz_questions.getD []
    let total_questions := qs.length
    let score := s.score.getD 0
    let answers := s.answers.getD []
    let percentage :=
      if 0 < total_questions then py_round_float (float_mul100 (float_div score total_questions))
      else 0
    let performance_class :=
      if 80 ≤ percentage then "excellent"
      else if 60 ≤ percentage then "good"
      else if 40 ≤ percentage then "average"
      else "needs-improvement"
    Except.ok ⟨score, total_questions, percentage, performance_class, answers⟩
  else Except.error QuizError.noActiveSession

/-- The Completed state of the session, as the data model words it: the
current index equals the number of questions. -/
def session_is_completed (s : SessionData) : Prop :=
  ∃ qs i, s.quiz_questions = some qs ∧ s.current_question_index = some i ∧ i = qs.length

/-- A session carrying a non-empty selected question sequence. -/
def has_nonempty_questions (s : SessionData) : Prop :=
  ∃ qs, s.quiz_questions = some qs ∧ qs ≠ []

/-- Performance tier from the spec wording: fixed thresholds with inclusive
lower bounds. -/
def tier_spec (p : Nat) : String :=
  if 80 ≤ p then "excellent"
  else if 60 ≤ p then "good"
  else if 40 ≤ p then "average"
  else "needs-improvement"

/-- A cleared session: no quiz keys at all. -/
def blank_session : SessionData := ⟨none, none, none, none⟩

/-- C4: on sessions satisfying the state-machine invariant (the stored index
never passes the number of stored questions), the results operation succeeds
only when the session is Completed or carries a non-empty question sequence,
and on every session outside that precondition it fails with the
no-active-session outcome (a redirect to start) and yields no summary. -/
theorem results_requires_active_session (s : SessionData)
    (hinv : ∀ qs i, s.quiz_questions = some qs → s.current_question_index = some i →
      i ≤ qs.length) :
    ((∃ r, results s = Except.ok r) → session_is_completed s ∨ has_nonempty_questions s) ∧
    (¬ (session_is_completed s ∨ has_nonempty_questions s) →
      results s = Except.error QuizError.noActiveSession) := by
  obtain ⟨oq, os, oi, oa⟩ := s
  cases oq with
  | none =>
    constructor
    · rintro ⟨r, hr⟩
      simp [results, is_valid_quiz_session] at hr
    · intro _
      simp [results, is_valid_quiz_session]
  | some qs =>
    cases oi with
    | none =>
      constructor
      · rintro ⟨r, hr⟩
        simp [results, is_valid_quiz_session] at hr
      · intro _
        simp [results, is_valid_quiz_session]
    | some i =>
      cases os with
      | none =>
        constructor
        · rintro ⟨r, hr⟩
          simp [results, is_valid_quiz_session] at hr
        · intro _
          simp [results, is_valid_quiz_session]
      | some sc =>
        have hP : session_is_completed ⟨some qs, some sc, some i, oa⟩ ∨
            has_nonempty_questions ⟨some qs, some sc, some i, oa⟩ := by
          cases qs with
          | nil =>
            left
            refine ⟨[], i, rfl, rfl, ?_⟩
            have := hinv [] i rfl rfl
            simpa using this
          | cons x xs =>
            right
            exact ⟨x :: xs, rfl, by simp⟩
        exact ⟨fun _ => hP, fun hnp => (hnp hP).elim⟩

/-- C4 witness: a cleared session has no quiz keys, vacuously satisfies the
invariant, fails the precondition, and results fails with the
no-active-session outcome. -/
theorem results_requires_active_session_witness :
    results blank_session = Except.error QuizError.noActiveSession := by
  have h := results_requires_active_session blank_session
    (by intro qs i hq hi; simp [blank_session] at hq)
  apply h.2
  rintro (⟨qs, i, hq, _, _⟩ | ⟨qs, hq, _⟩) <;> simp [blank_session] at hq

/-- C5: on every session carrying the three required keys, the results
operation succeeds and its summary has the stored score, the stored number
of questions as total, the percentage equal to round((score / total) * 100)
computed as the program computes it — binary64 division and multiplication,
then the Python round (nearest integer, ties to even) — when the total is
positive and 0 otherwise, and a performance class agreeing with the spec
tier thresholds (at least 80 excellent, at least 60 good, at least 40
average, lower needs-improvement). -/
theorem results_summary_spec (s : SessionData) (qs : List Question) (sc : Nat) (i : Nat)
    (hq : s.quiz_questions = some qs) (hs : s.score = some sc)
    (hi : s.current_question_index = some i) :
    ∃ r, results s = Except.ok r ∧ r.score = sc ∧ r.total_questions = qs.length ∧
      r.percentage
        = (if 0 < qs.length then py_round_float (float_mul100 (float_div sc qs.length)) else 0) ∧
      r.performance_class = tier_spec r.percentage := by
  obtain ⟨oq, os, oi, oa⟩ := s
  simp only at hq hs hi
  subst hq
  subst hs
  subst hi
  refine ⟨_, rfl, rfl, rfl, rfl, rfl⟩

/-- Scenario D session: 5 questions, score 3, index 5 (completed). -/
def session_d : SessionData := ⟨some sample_bank5, some 3, some 5, some []⟩

/-- C5 witness (Scenario D): a completed session with score 3 of 5 questions
summarizes to percentage 60 and the good tier. -/
theorem results_summary_spec_witness :
    session_d.quiz_questions = some sample_bank5 ∧ session_d.score = some 3 ∧
    session_d.current_question_index = some 5 ∧
    ∃ r, results session_d = Except.ok r ∧ r.score = 3 ∧ r.total_questions = 5 ∧
      r.percentage = 60 ∧ r.performance_class = "good" := by
  obtain ⟨r, hr, hsc, ht, hp, hc⟩ := results_summary_spec session_d sample_bank5 3 5 rfl rfl rfl
  have hp60 : r.percentage = 60 := by rw [hp]; decide
  refine ⟨rfl, rfl, rfl, r, hr, hsc, ?_, hp60, ?_⟩
  · rw [ht]; decide
  · rw [hc, hp60]; decide

end QuizApp
